import Mathlib

/-!
Verification of the publish/sync decision engine of `gulp-awspublish`
(`src/lib/index.js`), as a shallow embedding in Lean 4.

JavaScript values are modelled as follows:
- a vinyl file is a `VFile`; its `contents` field is the tagged union
  `FContents` (null / Buffer / stream);
- a JS object used as a string-keyed map is an association list whose
  lookup takes the first matching key (`Cache`, `Headers`);
- JS truthiness of strings (`""` is falsy) and of `undefined` is captured
  by `truthyS` / `truthyH` / `orS`;
- the MD5 digest and the `mime-types` lookups are external libraries and
  appear as function parameters of the embedded code;
- network interaction of one `publish` transform step is made explicit:
  the `headObject` answer is an input (`HeadResult`), and the produced
  `PubStep` records which calls were issued and what was emitted.
-/

/-- Tagged union of the payload kinds a vinyl file can carry:
`file.isNull()`, `file.isBuffer()` (a byte buffer), `file.isStream()`. -/
inductive FContents where
  | null
  | buffer (bytes : List Nat)
  | stream
deriving DecidableEq, Repr

/-- Header values: JS mixes strings (`Content-Type`) and numbers
(`Content-Length = file.contents.length`). -/
inductive HVal where
  | str (s : String)
  | num (n : Nat)
deriving DecidableEq, Repr

/-- A JS object used as a header map: association list, first key wins. -/
abbrev Headers := List (String × HVal)

/-- Lookup `headers[k]`; `none` models `undefined`. -/
def getH (hs : Headers) (k : String) : Option HVal :=
  (hs.find? (fun p => p.1 == k)).map (fun p => p.2)

/-- Assignment `headers[k] = v`: overwrite an existing key, else append. -/
def setH (hs : Headers) (k : String) (v : HVal) : Headers :=
  if (hs.find? (fun p => p.1 == k)).isSome then
    hs.map (fun p => if p.1 == k then (k, v) else p)
  else hs ++ [(k, v)]

/-- JS truthiness of a possibly-undefined string (`undefined` and `""` are falsy). -/
def truthyS : Option String → Bool
  | none => false
  | some s => s != ""

/-- JS truthiness of a possibly-undefined header value. -/
def truthyH : Option HVal → Bool
  | none => false
  | some (.str s) => s != ""
  | some (.num n) => n != 0

/-- The JS idiom `a || b` for a possibly-undefined string `a`. -/
def orS : Option String → String → String
  | none, b => b
  | some s, b => if s == "" then b else s

/-- The persisted cache `this._cache`: a JS object mapping
`s3.path → etag`. -/
abbrev Cache := List (String × String)

/-- Lookup `cache[k]`. -/
def getC (c : Cache) (k : String) : Option String :=
  (c.find? (fun p => p.1 == k)).map (fun p => p.2)

/-- Assignment `cache[k] = v`. -/
def setC (c : Cache) (k : String) (v : String) : Cache :=
  if (c.find? (fun p => p.1 == k)).isSome then
    c.map (fun p => if p.1 == k then (k, v) else p)
  else c ++ [(k, v)]

/-- Deletion `delete cache[k]`. -/
def delC (c : Cache) (k : String) : Cache :=
  c.filter (fun p => p.1 != k)

/-- The `file.s3` hash attached by `initFile`:
`{ headers, path, state, etag, date }`. -/
structure S3Info where
  headers : Headers := []
  path : String := ""
  state : Option String := none
  etag : Option String := none
  date : Option Nat := none
deriving DecidableEq, Repr

/-- A vinyl file as seen by this plugin. -/
structure VFile where
  contents : FContents := .null
  relative : String := ""
  path : String := ""
  unzipPath : Option String := none
  s3 : Option S3Info := none
deriving DecidableEq, Repr

/-- Embedding of `file.relative.replace(/\\/g, '/')`: replace every
backslash with a forward slash. -/
def normalizePath (s : String) : String :=
  String.mk (s.data.map fun c => if c = '\\' then '/' else c)

/-- Source `initFile`: attach an `s3` hash (with empty headers and the
normalized relative path as key) if the file does not have one yet. -/
def initFile (file : VFile) : VFile :=
  match file.s3 with
  | some _ => file
  | none =>
    { file with s3 := some { headers := [], path := normalizePath file.relative } }

/-- Read `file.s3`, defaulting like JS property access on the files this
plugin has initialized (all call sites run after `initFile`). -/
def getS3 (file : VFile) : S3Info :=
  file.s3.getD {}

/-- Replace `file.s3`. -/
def setS3 (file : VFile) (s : S3Info) : VFile :=
  { file with s3 := some s }

/-- Assignment `file.s3.headers[k] = v`. -/
def setHeader (file : VFile) (k : String) (v : HVal) : VFile :=
  setS3 file { getS3 file with headers := setH (getS3 file).headers k v }

/-- Source `getContentType`: `mime.lookup(file.unzipPath || file.path)`
falling back to `application/octet-stream`, with a lowercased charset
suffix when `mime.charset` reports one. The two `mime-types` functions
are parameters. -/
def getContentType (mimeLookup mimeCharset : String → Option String)
    (file : VFile) : String :=
  let mimeType := orS (mimeLookup (orS file.unzipPath file.path)) "application/octet-stream"
  match mimeCharset mimeType with
  | some c => if c == "" then mimeType else mimeType ++ "; charset=" ++ c.toLower
  | none => mimeType

/-- Option hash of `Publisher.prototype.publish`. -/
structure Options where
  force : Bool := false
  noAcl : Bool := false
  simulate : Bool := false
  createOnly : Bool := false
  compress : Option (List (String × String)) := none
deriving Repr

/-- One step of the `options.compress` key scan inside `publish`: when the
file has no truthy `unzipPath` yet and its path ends with the compress
suffix, record the original path and (if absent) a `Content-Encoding`
header. -/
def compressOne (kv : String × String) (f : VFile) : VFile :=
  if !truthyS f.unzipPath && f.path.endsWith kv.1 then
    let f2 := { f with unzipPath := some (f.path.take (f.path.length - kv.1.length)) }
    if truthyH (getH (getS3 f2).headers "Content-Encoding") then f2
    else setHeader f2 "Content-Encoding" (.str kv.2)
  else f

/-- The `Object.keys(options.compress).forEach(...)` loop of `publish`. -/
def detectCompressEncoding (compress : List (String × String)) (file : VFile) : VFile :=
  compress.foldl (fun f kv => compressOne kv f) file

/-- The header-derivation block of `publish`: set `Content-Type` (running
the compress scan first) unless already truthy, then `Content-Length`
unless already truthy. `buf` is `file.contents`. -/
def addPublishHeaders (mimeLookup mimeCharset : String → Option String)
    (opts : Options) (buf : List Nat) (file : VFile) : VFile :=
  let file :=
    if truthyH (getH (getS3 file).headers "Content-Type") then file
    else
      let file :=
        match opts.compress with
        | some comp => detectCompressEncoding comp file
        | none => file
      setHeader file "Content-Type" (.str (getContentType mimeLookup mimeCharset file))
  if truthyH (getH (getS3 file).headers "Content-Length") then file
  else setHeader file "Content-Length" (.num buf.length)

/-- The `for (header in headers) file.s3.headers[header] = headers[header]`
loop of `publish`. -/
def applyExtraHeaders (headers : Headers) (file : VFile) : VFile :=
  headers.foldl (fun f kv => setHeader f kv.1 kv.2) file

/-- The per-file preprocessing of `publish` before any network call:
`initFile`, then derived headers, then caller headers. -/
def preparedFile (mimeLookup mimeCharset : String → Option String)
    (headers : Headers) (opts : Options) (buf : List Nat) (file0 : VFile) : VFile :=
  applyExtraHeaders headers
    (addPublishHeaders mimeLookup mimeCharset opts buf (initFile file0))

/-- The header defaulting done once when the publish stream is created:
`if (!headers['x-amz-acl'] && !options.noAcl) headers['x-amz-acl'] = 'public-read'`. -/
def initPublishHeaders (headers : Headers) (opts : Options) : Headers :=
  if !truthyH (getH headers "x-amz-acl") && !opts.noAcl then
    setH headers "x-amz-acl" (.str "public-read")
  else headers

/-- Result object of a successful (or benign-error) `headObject` call;
`res = {}` is `{ eTag := none, lastModified := none }`. -/
structure RemoteMeta where
  eTag : Option String := none
  lastModified : Option Nat := none
deriving DecidableEq, Repr

/-- Outcome of the `headObject` network call: an error carrying an HTTP
status code, or a response object. -/
inductive HeadResult where
  | err (statusCode : Nat)
  | ok (res : RemoteMeta)
deriving DecidableEq, Repr

/-- Failures a publish step can surface through its callback or the
stream error channel. -/
inductive PubErr where
  | streamNotSupported
  | remote (statusCode : Nat)
  | putFailed
deriving DecidableEq, Repr

/-- Observable outcome of pushing one file through the `publish`
transform: the emitted file (if any), the surfaced error (if any), and
which network calls were issued. -/
structure PubStep where
  out : Option VFile := none
  err : Option PubErr := none
  headCalled : Bool := false
  putCalled : Bool := false
deriving DecidableEq, Repr

/-- The decision block inside the `headObject` callback of `publish`:
`skip` when `createOnly` finds an existing object or the remote etag
matches (without force), otherwise `update`/`create` plus a `putObject`
whose success is the input `putOk`. `now` is `new Date()`. -/
def publishDecide (opts : Options) (etag : String) (res : RemoteMeta)
    (putOk : Bool) (now : Nat) (file : VFile) : PubStep :=
  let noUpdate := opts.createOnly && truthyS res.eTag
  let noChange := !opts.force && (res.eTag == some etag)
  if noUpdate || noChange then
    { out := some (setS3 file
        { getS3 file with state := some "skip", etag := some etag, date := res.lastModified }),
      headCalled := true }
  else
    let st := if truthyS res.eTag then "update" else "create"
    let file := setS3 file { getS3 file with state := some st }
    if putOk then
      { out := some (setS3 file { getS3 file with date := some now, etag := some etag }),
        headCalled := true, putCalled := true }
    else
      { err := some .putFailed, headCalled := true, putCalled := true }

/-- The `headObject` callback of `publish`: 403/404 errors are treated as
absence (`res = {}`), any other error aborts the file. -/
def publishHead (opts : Options) (etag : String) (head : HeadResult)
    (putOk : Bool) (now : Nat) (file : VFile) : PubStep :=
  match head with
  | .err code =>
    if code == 403 || code == 404 then publishDecide opts etag {} putOk now file
    else { err := some (.remote code), headCalled := true }
  | .ok res => publishDecide opts etag res putOk now file

/-- One file through the `publish` transform (`Publisher.prototype.publish`).
`md5Hash` is the digest function, `cache` is the publisher's `_cache`,
`head`/`putOk`/`now` are the environment answers for the (at most one)
`headObject` and `putObject` calls. -/
def publishOne (md5Hash : List Nat → String)
    (mimeLookup mimeCharset : String → Option String)
    (headers : Headers) (opts : Options) (cache : Cache)
    (head : HeadResult) (putOk : Bool) (now : Nat) (file0 : VFile) : PubStep :=
  match file0.contents with
  | .null => {}
  | .stream => { err := some .streamNotSupported }
  | .buffer buf =>
    let file := initFile file0
    let etag := "\"" ++ md5Hash buf ++ "\""
    if (getS3 file).state == some "delete" then { out := some file }
    else if !opts.force && (getC cache (getS3 file).path == some etag) then
      { out := some (setS3 file { getS3 file with state := some "cache" }) }
    else
      let file2 := preparedFile mimeLookup mimeCharset headers opts buf file0
      if opts.simulate then { out := some file2 }
      else publishHead opts etag head putOk now file2

/-- Cache loading in the `Publisher` constructor:
`try { this._cache = JSON.parse(fs.readFileSync(...)) } catch (err) { this._cache = {} }`.
The file read and the JSON parse are parameters; either failing yields
the empty cache. -/
def loadCache (readCacheFile : Except Unit String)
    (parseJSON : String → Except Unit Cache) : Cache :=
  match readCacheFile with
  | .error _ => []
  | .ok s =>
    match parseJSON s with
    | .error _ => []
    | .ok c => c

/-- State of one `Publisher.prototype.cache()` stream: the shared
`_cache`, the per-stream `counter`, and the sequence of cache snapshots
written to disk by `saveCache()` so far. -/
structure CacheState where
  cache : Cache := []
  counter : Nat := 0
  saves : List Cache := []
deriving DecidableEq, Repr

/-- The `saveCache()` closure: write the current cache to the cache file. -/
def saveCacheSt (st : CacheState) : CacheState :=
  { st with saves := st.saves ++ [st.cache] }

/-- One file through the `cache()` transform: files without a truthy
`s3.path` pass through untouched; `state === 'cache'` returns early;
`delete` removes the key; otherwise a truthy `etag` overwrites it; then
`if (++counter % 10) saveCache()`. -/
def cacheStep (st : CacheState) (file : VFile) : CacheState :=
  match file.s3 with
  | none => st
  | some s3 =>
    if s3.path == "" then st
    else if s3.state == some "cache" then st
    else
      let cache2 :=
        if s3.state == some "delete" then delC st.cache s3.path
        else
          match s3.etag with
          | some t => if t == "" then st.cache else setC st.cache s3.path t
          | none => st.cache
      let st2 : CacheState := { st with cache := cache2, counter := st.counter + 1 }
      if st2.counter % 10 ≠ 0 then saveCacheSt st2 else st2

/-- A whole run of files through the `cache()` transform (without the
final `finish` flush). -/
def cacheStream (st : CacheState) (files : List VFile) : CacheState :=
  files.foldl cacheStep st

/-- A finished run of the `cache()` transform: `stream.on('finish', saveCache)`
flushes once more unconditionally. -/
def cacheRun (st : CacheState) (files : List VFile) : CacheState :=
  saveCacheSt (cacheStream st files)

/-- A whitelist entry as the source inspects it: a `RegExp` (used only
through `expr.test(key)`, so embedded as its test predicate), a string,
or anything else (which the source rejects). -/
inductive WEntry where
  | regex (test : String → Bool)
  | str (s : String)
  | other

/-- Well-formedness of a whitelist entry (not the rejected third case). -/
def wellFormedW : WEntry → Prop
  | .other => False
  | _ => True

/-- Source `fileShouldBeDeleted`: scan the whitelist; a matching regex or
equal string protects the key (`false`), a malformed entry throws, an
exhausted list yields `true`. -/
def fileShouldBeDeleted (key : String) (whitelist : List WEntry) : Except String Bool :=
  match whitelist with
  | [] => .ok true
  | e :: rest =>
    match e with
    | .regex t => if t key then .ok false else fileShouldBeDeleted key rest
    | .str s => if s == key then .ok false else fileShouldBeDeleted key rest
    | .other => .error "whitelist param can only contain regular expressions or strings"

/-- Specification-side predicate: the key equals a literal whitelist
string or satisfies a whitelist pattern. -/
def matchesWhitelist (key : String) (whitelist : List WEntry) : Bool :=
  whitelist.any fun e =>
    match e with
    | .regex t => t key
    | .str s => s == key
    | .other => false

/-- One entry of `Delete.Objects` in a `deleteObjects` request. -/
structure DeleteObjectEntry where
  Key : String
deriving DecidableEq, Repr

/-- The `Delete` member of a `deleteObjects` request. -/
structure DeleteSpec where
  Objects : List DeleteObjectEntry
deriving DecidableEq, Repr

/-- A `deleteObjects` request as built by `buildDeleteMultiple`. -/
structure DeleteRequest where
  Delete : DeleteSpec
deriving DecidableEq, Repr

/-- Source `buildDeleteMultiple`: `undefined` (here `none`) for an absent
or empty key list, otherwise the keys wrapped as `Delete.Objects`. -/
def buildDeleteMultiple (keys : Option (List String)) : Option DeleteRequest :=
  match keys with
  | none => none
  | some ks =>
    if ks.length = 0 then none
    else some { Delete := { Objects := ks.map fun k => { Key := k } } }

/-- The `lister.on('data', ...)` accumulation of `sync`'s `_flush`: each
listed key is skipped when it was pushed through the stream in this run
(`newFiles[key]`) or when `fileShouldBeDeleted` protects it; a malformed
whitelist entry reached during the scan throws. -/
def computeToDelete (newFiles : List String) (whitelist : List WEntry)
    (listed : List String) : Except String (List String) :=
  match listed with
  | [] => .ok []
  | key :: rest =>
    if newFiles.contains key then computeToDelete newFiles whitelist rest
    else
      match fileShouldBeDeleted key whitelist with
      | .error e => .error e
      | .ok false => computeToDelete newFiles whitelist rest
      | .ok true => (computeToDelete newFiles whitelist rest).map (fun l => key :: l)

/-- The synthetic `delete`-state vinyl files `sync` pushes downstream for
the keys it is about to delete (`new Vinyl({})` plus an `s3` hash). -/
def syncDeleteFiles (keys : List String) : List VFile :=
  keys.map fun k =>
    { contents := .null, s3 := some { path := k, state := some "delete", headers := [] } }

/-- Observable outcome of `sync`'s `_flush`: the accumulated delete keys
and, when `deleteObjects` was invoked, the argument it received (which is
`buildDeleteMultiple(toDelete)`). -/
structure SyncFlushResult where
  toDelete : List String
  deleteCall : Option (Option DeleteRequest)
deriving DecidableEq, Repr

/-- The `lister.on('end', ...)` handler of `sync`'s `_flush`: no call at
all for an empty delete list, otherwise one `deleteObjects` call with
`buildDeleteMultiple(toDelete)`. -/
def syncFlush (newFiles : List String) (whitelist : List WEntry)
    (listed : List String) : Except String SyncFlushResult :=
  match computeToDelete newFiles whitelist listed with
  | .error e => .error e
  | .ok toDelete =>
    if toDelete.length = 0 then .ok { toDelete := toDelete, deleteCall := none }
    else .ok { toDelete := toDelete, deleteCall := some (buildDeleteMultiple (some toDelete)) }

/-- Modelled from the spec: the remote store's per-call batch limit for
`deleteObjects` ("bounded batch size per call per store limits"); S3
accepts at most 1000 keys per `DeleteObjects` request. The source never
consults such a limit. -/
def storeDeleteLimit : Nat := 1000

theorem getC_map_set (c : Cache) (k v : String)
    (h : (c.find? (fun p => p.1 == k)).isSome = true) :
    getC (c.map (fun p => if p.1 == k then (k, v) else p)) k = some v := by
  induction c with
  | nil => simp [List.find?] at h
  | cons a c ih =>
    by_cases ha : (a.1 == k) = true
    · simp [getC, List.find?, ha]
    · simp only [List.find?, ha] at h
      simp only [List.map, ha, if_false]
      simpa [getC, List.find?, ha] using ih h

theorem getC_setC (c : Cache) (k v : String) : getC (setC c k v) k = some v := by
  unfold setC
  by_cases h : (c.find? (fun p => p.1 == k)).isSome = true
  · rw [if_pos h]
    exact getC_map_set c k v h
  · rw [if_neg h]
    induction c with
    | nil => simp [getC, List.find?]
    | cons a c ih =>
      by_cases ha : (a.1 == k) = true
      · simp [List.find?, ha] at h
      · simp only [List.find?_cons, ha] at h ⊢
        simp only [List.cons_append, getC, List.find?_cons, ha]
        simpa [getC] using ih h

theorem quoted_beq_empty (s : String) : (("\"" ++ s ++ "\"") == "") = false := by
  rw [beq_eq_false_iff_ne]
  intro h
  have h2 := congrArg String.data h
  simp [String.data_append] at h2

/-- All file fields that the header-derivation stage of `publish` leaves
untouched (everything except `unzipPath` and `s3.headers`). -/
def sameButHeaders (f g : VFile) : Prop :=
  g.contents = f.contents ∧ g.relative = f.relative ∧ g.path = f.path ∧
  (f.s3.isSome = true → g.s3.isSome = true) ∧
  (getS3 g).path = (getS3 f).path ∧ (getS3 g).state = (getS3 f).state ∧
  (getS3 g).etag = (getS3 f).etag ∧ (getS3 g).date = (getS3 f).date

theorem sameButHeaders_refl (f : VFile) : sameButHeaders f f := by
  simp [sameButHeaders]

theorem sameButHeaders_trans {f g h : VFile}
    (h1 : sameButHeaders f g) (h2 : sameButHeaders g h) : sameButHeaders f h := by
  obtain ⟨a1, a2, a3, a4, a5, a6, a7, a8⟩ := h1
  obtain ⟨b1, b2, b3, b4, b5, b6, b7, b8⟩ := h2
  exact ⟨b1.trans a1, b2.trans a2, b3.trans a3, fun hs => b4 (a4 hs),
    b5.trans a5, b6.trans a6, b7.trans a7, b8.trans a8⟩

theorem sameButHeaders_setHeader (f : VFile) (k : String) (v : HVal) :
    sameButHeaders f (setHeader f k v) := by
  simp [sameButHeaders, setHeader, setS3, getS3]

theorem sameButHeaders_unzip (f : VFile) (u : Option String) :
    sameButHeaders f { f with unzipPath := u } := by
  simp [sameButHeaders, getS3]

theorem sameButHeaders_compressOne (kv : String × String) (f : VFile) :
    sameButHeaders f (compressOne kv f) := by
  simp only [compressOne]
  split
  · split
    · exact sameButHeaders_unzip f _
    · exact sameButHeaders_trans (sameButHeaders_unzip f _) (sameButHeaders_setHeader _ _ _)
  · exact sameButHeaders_refl f

theorem sameButHeaders_detect (compress : List (String × String)) (f : VFile) :
    sameButHeaders f (detectCompressEncoding compress f) := by
  unfold detectCompressEncoding
  induction compress generalizing f with
  | nil => exact sameButHeaders_refl f
  | cons kv rest ih =>
    exact sameButHeaders_trans (sameButHeaders_compressOne kv f) (ih (compressOne kv f))

theorem sameButHeaders_addPublishHeaders (ml mc : String → Option String)
    (opts : Options) (buf : List Nat) (f : VFile) :
    sameButHeaders f (addPublishHeaders ml mc opts buf f) := by
  simp only [addPublishHeaders]
  split
  · split
    · exact sameButHeaders_refl f
    · exact sameButHeaders_setHeader f _ _
  · cases h : opts.compress with
    | none =>
      simp only [h]
      split
      · exact sameButHeaders_setHeader f _ _
      · exact sameButHeaders_trans (sameButHeaders_setHeader f _ _)
          (sameButHeaders_setHeader _ _ _)
    | some comp =>
      simp only [h]
      split
      · exact sameButHeaders_trans (sameButHeaders_detect comp f)
          (sameButHeaders_setHeader _ _ _)
      · exact sameButHeaders_trans
          (sameButHeaders_trans (sameButHeaders_detect comp f) (sameButHeaders_setHeader _ _ _))
          (sameButHeaders_setHeader _ _ _)

theorem sameButHeaders_applyExtraHeaders (hs : Headers) (f : VFile) :
    sameButHeaders f (applyExtraHeaders hs f) := by
  unfold applyExtraHeaders
  induction hs generalizing f with
  | nil => exact sameButHeaders_refl f
  | cons kv rest ih =>
    exact sameButHeaders_trans (sameButHeaders_setHeader f kv.1 kv.2) (ih _)

theorem sameButHeaders_preparedFile (ml mc : String → Option String)
    (hs : Headers) (opts : Options) (buf : List Nat) (f : VFile) :
    sameButHeaders (initFile f) (preparedFile ml mc hs opts buf f) := by
  unfold preparedFile
  exact sameButHeaders_trans (sameButHeaders_addPublishHeaders ml mc opts buf (initFile f))
    (sameButHeaders_applyExtraHeaders hs _)

theorem getS3_setS3 (f : VFile) (s : S3Info) : getS3 (setS3 f s) = s := rfl

theorem publishDecide_out_fields (opts : Options) (etag : String) (res : RemoteMeta)
    (putOk : Bool) (now : Nat) (f g : VFile)
    (h : (publishDecide opts etag res putOk now f).out = some g) :
    g.s3.isSome = true ∧ (getS3 g).path = (getS3 f).path ∧ (getS3 g).etag = some etag ∧
    ((getS3 g).state = some "skip" ∨ (getS3 g).state = some "create" ∨
      (getS3 g).state = some "update") := by
  simp only [publishDecide] at h
  by_cases hc : (opts.createOnly && truthyS res.eTag
      || !opts.force && (res.eTag == some etag)) = true
  · rw [if_pos hc] at h
    simp only [Option.some.injEq] at h
    subst h
    simp [getS3, setS3]
  · rw [if_neg hc] at h
    by_cases hp : putOk = true
    · rw [if_pos hp] at h
      simp only [Option.some.injEq] at h
      subst h
      by_cases ht : truthyS res.eTag = true
      · simp [getS3, setS3, ht]
      · rw [Bool.not_eq_true] at ht
        simp [getS3, setS3, ht]
    · rw [if_neg hp] at h
      simp at h

theorem publishDecide_err_none_out (opts : Options) (etag : String) (res : RemoteMeta)
    (putOk : Bool) (now : Nat) (f : VFile)
    (h : (publishDecide opts etag res putOk now f).err = none) :
    (publishDecide opts etag res putOk now f).out.isSome = true := by
  simp only [publishDecide] at h ⊢
  by_cases hc : (opts.createOnly && truthyS res.eTag
      || !opts.force && (res.eTag == some etag)) = true
  · rw [if_pos hc]
    simp
  · rw [if_neg hc] at h ⊢
    by_cases hp : putOk = true
    · rw [if_pos hp]
      simp
    · rw [if_neg hp] at h
      simp at h

theorem publishDecide_err_out_none (opts : Options) (etag : String) (res : RemoteMeta)
    (putOk : Bool) (now : Nat) (f : VFile)
    (h : (publishDecide opts etag res putOk now f).err.isSome = true) :
    (publishDecide opts etag res putOk now f).out = none := by
  simp only [publishDecide] at h ⊢
  by_cases hc : (opts.createOnly && truthyS res.eTag
      || !opts.force && (res.eTag == some etag)) = true
  · rw [if_pos hc] at h
    simp at h
  · rw [if_neg hc] at h ⊢
    by_cases hp : putOk = true
    · rw [if_pos hp] at h
      simp at h
    · rw [if_neg hp]

theorem publishOne_null (md5Hash : List Nat → String)
    (ml mc : String → Option String) (hdrs : Headers) (opts : Options) (cache : Cache)
    (head : HeadResult) (putOk : Bool) (now : Nat) (file0 : VFile)
    (h : file0.contents = .null) :
    publishOne md5Hash ml mc hdrs opts cache head putOk now file0 = {} := by
  unfold publishOne
  rw [h]

theorem publishOne_buffer_delete (md5Hash : List Nat → String)
    (ml mc : String → Option String) (hdrs : Headers) (opts : Options) (cache : Cache)
    (head : HeadResult) (putOk : Bool) (now : Nat) (file0 : VFile) (buf : List Nat)
    (hbuf : file0.contents = .buffer buf)
    (hdel : ((getS3 (initFile file0)).state == some "delete") = true) :
    publishOne md5Hash ml mc hdrs opts cache head putOk now file0 =
      { out := some (initFile file0) } := by
  unfold publishOne
  rw [hbuf]
  simp only [hdel, if_true]

theorem publishOne_buffer_hit (md5Hash : List Nat → String)
    (ml mc : String → Option String) (hdrs : Headers) (opts : Options) (cache : Cache)
    (head : HeadResult) (putOk : Bool) (now : Nat) (file0 : VFile) (buf : List Nat)
    (hbuf : file0.contents = .buffer buf)
    (hdel : ((getS3 (initFile file0)).state == some "delete") = false)
    (hhit : (!opts.force &&
      (getC cache (getS3 (initFile file0)).path ==
        some ("\"" ++ md5Hash buf ++ "\""))) = true) :
    publishOne md5Hash ml mc hdrs opts cache head putOk now file0 =
      { out := some (setS3 (initFile file0)
          { getS3 (initFile file0) with state := some "cache" }) } := by
  unfold publishOne
  rw [hbuf]
  simp only [hdel, Bool.false_eq_true, if_false, hhit, if_true]

theorem publishOne_buffer_miss (md5Hash : List Nat → String)
    (ml mc : String → Option String) (hdrs : Headers) (opts : Options) (cache : Cache)
    (head : HeadResult) (putOk : Bool) (now : Nat) (file0 : VFile) (buf : List Nat)
    (hbuf : file0.contents = .buffer buf)
    (hdel : ((getS3 (initFile file0)).state == some "delete") = false)
    (hmiss : (!opts.force &&
      (getC cache (getS3 (initFile file0)).path ==
        some ("\"" ++ md5Hash buf ++ "\""))) = false)
    (hsim : opts.simulate = false) :
    publishOne md5Hash ml mc hdrs opts cache head putOk now file0 =
      publishHead opts ("\"" ++ md5Hash buf ++ "\"") head putOk now
        (preparedFile ml mc hdrs opts buf file0) := by
  unfold publishOne
  rw [hbuf]
  simp only [hdel, Bool.false_eq_true, if_false, hmiss, hsim]

theorem publishOne_buffer_simulate (md5Hash : List Nat → String)
    (ml mc : String → Option String) (hdrs : Headers) (opts : Options) (cache : Cache)
    (head : HeadResult) (putOk : Bool) (now : Nat) (file0 : VFile) (buf : List Nat)
    (hbuf : file0.contents = .buffer buf)
    (hdel : ((getS3 (initFile file0)).state == some "delete") = false)
    (hmiss : (!opts.force &&
      (getC cache (getS3 (initFile file0)).path ==
        some ("\"" ++ md5Hash buf ++ "\""))) = false)
    (hsim : opts.simulate = true) :
    publishOne md5Hash ml mc hdrs opts cache head putOk now file0 =
      { out := some (preparedFile ml mc hdrs opts buf file0) } := by
  unfold publishOne
  rw [hbuf]
  simp only [hdel, Bool.false_eq_true, if_false, hmiss, hsim, if_true]

theorem publishHead_err_none_out (opts : Options) (etag : String) (head : HeadResult)
    (putOk : Bool) (now : Nat) (f : VFile)
    (h : (publishHead opts etag head putOk now f).err = none) :
    (publishHead opts etag head putOk now f).out.isSome = true := by
  cases head with
  | ok res => exact publishDecide_err_none_out opts etag res putOk now f h
  | err code =>
    simp only [publishHead] at h ⊢
    by_cases hb : (code == 403 || code == 404) = true
    · rw [if_pos hb] at h ⊢
      exact publishDecide_err_none_out opts etag {} putOk now f h
    · rw [if_neg hb] at h
      simp at h

theorem publishHead_err_out_none (opts : Options) (etag : String) (head : HeadResult)
    (putOk : Bool) (now : Nat) (f : VFile)
    (h : (publishHead opts etag head putOk now f).err.isSome = true) :
    (publishHead opts etag head putOk now f).out = none := by
  cases head with
  | ok res => exact publishDecide_err_out_none opts etag res putOk now f h
  | err code =>
    simp only [publishHead] at h ⊢
    by_cases hb : (code == 403 || code == 404) = true
    · rw [if_pos hb] at h ⊢
      exact publishDecide_err_out_none opts etag {} putOk now f h
    · rw [if_neg hb]

/-- C3, counterexample: the claim says a file with no content payload is
emitted unchanged downstream; in the source `if (file.isNull()) return cb();`
emits nothing, so for a concrete null-contents file the publish transform
produces no output file at all. -/
theorem publish_null_dropped :
    (publishOne (fun _ => "") (fun _ => none) (fun _ => none) [] {} []
      (.ok {}) true 0 { contents := .null }).out = none := rfl

/-- C3, amended: a file with null contents is dropped by the publish
transform without any processing, emission, error or network call; a
buffer-payload file whose processing surfaces no error is emitted exactly
once; a file whose processing surfaces an error (unsupported stream
payload, non-benign `headObject` error, or failed `putObject`) is not
emitted. -/
theorem publish_emission (md5Hash : List Nat → String)
    (ml mc : String → Option String) (hdrs : Headers) (opts : Options) (cache : Cache)
    (head : HeadResult) (putOk : Bool) (now : Nat) (file0 : VFile) :
    (file0.contents = FContents.null →
      publishOne md5Hash ml mc hdrs opts cache head putOk now file0 = {}) ∧
    (∀ buf, file0.contents = FContents.buffer buf →
      (publishOne md5Hash ml mc hdrs opts cache head putOk now file0).err = none →
      (publishOne md5Hash ml mc hdrs opts cache head putOk now file0).out.isSome = true) ∧
    ((publishOne md5Hash ml mc hdrs opts cache head putOk now file0).err.isSome = true →
      (publishOne md5Hash ml mc hdrs opts cache head putOk now file0).out = none) := by
  refine ⟨fun h => publishOne_null md5Hash ml mc hdrs opts cache head putOk now file0 h, ?_, ?_⟩
  · intro buf hbuf herr
    cases hdel : ((getS3 (initFile file0)).state == some "delete") with
    | true =>
      rw [publishOne_buffer_delete md5Hash ml mc hdrs opts cache head putOk now file0 buf
        hbuf hdel]
      rfl
    | false =>
      cases hhit : (!opts.force && (getC cache (getS3 (initFile file0)).path ==
          some ("\"" ++ md5Hash buf ++ "\""))) with
      | true =>
        rw [publishOne_buffer_hit md5Hash ml mc hdrs opts cache head putOk now file0 buf
          hbuf hdel hhit]
        rfl
      | false =>
        cases hsim : opts.simulate with
        | true =>
          rw [publishOne_buffer_simulate md5Hash ml mc hdrs opts cache head putOk now file0 buf
            hbuf hdel hhit hsim]
          rfl
        | false =>
          rw [publishOne_buffer_miss md5Hash ml mc hdrs opts cache head putOk now file0 buf
            hbuf hdel hhit hsim] at herr ⊢
          exact publishHead_err_none_out _ _ _ _ _ _ herr
  · intro herr
    cases hc : file0.contents with
    | null =>
      rw [publishOne_null md5Hash ml mc hdrs opts cache head putOk now file0 hc] at herr
      simp at herr
    | stream =>
      simp only [publishOne, hc]
    | buffer buf =>
      cases hdel : ((getS3 (initFile file0)).state == some "delete") with
      | true =>
        rw [publishOne_buffer_delete md5Hash ml mc hdrs opts cache head putOk now file0 buf
          hc hdel] at herr
        simp at herr
      | false =>
        cases hhit : (!opts.force && (getC cache (getS3 (initFile file0)).path ==
            some ("\"" ++ md5Hash buf ++ "\""))) with
        | true =>
          rw [publishOne_buffer_hit md5Hash ml mc hdrs opts cache head putOk now file0 buf
            hc hdel hhit] at herr
          simp at herr
        | false =>
          cases hsim : opts.simulate with
          | true =>
            rw [publishOne_buffer_simulate md5Hash ml mc hdrs opts cache head putOk now file0 buf
              hc hdel hhit hsim] at herr
            simp at herr
          | false =>
            rw [publishOne_buffer_miss md5Hash ml mc hdrs opts cache head putOk now file0 buf
              hc hdel hhit hsim] at herr ⊢
            exact publishHead_err_out_none _ _ _ _ _ _ herr

/-- C3, witness for the amended theorem: a concrete null file is dropped
and a concrete buffer file that publishes cleanly is emitted. -/
theorem publish_emission_witness :
    publishOne (fun _ => "h") (fun _ => none) (fun _ => none) [] {} [] (.ok {}) true 7
      { contents := .null } = {} ∧
    (publishOne (fun _ => "h") (fun _ => none) (fun _ => none) [] {} [] (.ok {}) true 7
      { contents := .buffer [1, 2], relative := "a.txt", path := "a.txt" }).out.isSome = true :=
  ⟨(publish_emission (fun _ => "h") (fun _ => none) (fun _ => none) [] {} [] (.ok {}) true 7
      { contents := .null }).1 rfl,
   (publish_emission (fun _ => "h") (fun _ => none) (fun _ => none) [] {} [] (.ok {}) true 7
      { contents := .buffer [1, 2], relative := "a.txt", path := "a.txt" }).2.1 [1, 2] rfl
      (by decide)⟩

/-- C7: constructing a publisher loads the persisted cache through
`try { JSON.parse(readFileSync(...)) } catch { {} }`; a missing file or a
parse failure yields the empty cache without surfacing an error, and a
readable well-formed file yields the deserialized mapping. -/
theorem cache_load_recovery (readCacheFile : Except Unit String)
    (parseJSON : String → Except Unit Cache) (s : String) (c : Cache) :
    (readCacheFile = .error () → loadCache readCacheFile parseJSON = []) ∧
    (readCacheFile = .ok s → parseJSON s = .error () →
      loadCache readCacheFile parseJSON = []) ∧
    (readCacheFile = .ok s → parseJSON s = .ok c →
      loadCache readCacheFile parseJSON = c) := by
  refine ⟨?_, ?_, ?_⟩
  · intro h
    subst h
    rfl
  · intro h1 h2
    subst h1
    simp [loadCache, h2]
  · intro h1 h2
    subst h1
    simp [loadCache, h2]

/-- C7, witness: concrete missing file, malformed content, and well-formed
content. -/
theorem cache_load_recovery_witness :
    loadCache (.error ()) (fun _ => .ok [("k", "v")]) = [] ∧
    loadCache (.ok "bad") (fun _ => .error ()) = [] ∧
    loadCache (.ok "good") (fun _ => .ok [("k", "v")]) = [("k", "v")] :=
  ⟨(cache_load_recovery (.error ()) (fun _ => .ok [("k", "v")]) "x" []).1 rfl,
   (cache_load_recovery (.ok "bad") (fun _ => .error ()) "bad" []).2.1 rfl rfl,
   (cache_load_recovery (.ok "good") (fun _ => .ok [("k", "v")]) "good"
      [("k", "v")]).2.2 rfl rfl⟩

/-- C9: for a cache-relevant file (an `s3` hash with a truthy path), the
cache stream removes the key on `delete` state, overwrites it with the
new fingerprint on `create`/`update` (whose emitted files carry a truthy
etag), and leaves the mapping untouched on the cache-hit state `cache`. -/
theorem cache_state_transitions (st : CacheState) (f : VFile) (s3v : S3Info)
    (hs3 : f.s3 = some s3v) (hpath : s3v.path ≠ "") :
    (s3v.state = some "delete" → (cacheStep st f).cache = delC st.cache s3v.path) ∧
    (∀ t, (s3v.state = some "create" ∨ s3v.state = some "update") → s3v.etag = some t →
      t ≠ "" → (cacheStep st f).cache = setC st.cache s3v.path t) ∧
    (s3v.state = some "cache" → (cacheStep st f).cache = st.cache) := by
  have hp : (s3v.path == "") = false := beq_eq_false_iff_ne.mpr hpath
  refine ⟨?_, ?_, ?_⟩
  · intro hstate
    have h1 : ((some "delete" : Option String) == some "cache") = false := rfl
    have h2 : ((some "delete" : Option String) == some "delete") = true := rfl
    simp only [cacheStep, hs3, hp, Bool.false_eq_true, if_false, hstate, h1, h2, if_true]
    split <;> simp [saveCacheSt]
  · intro t hstate hetag ht
    have ht2 : (t == "") = false := beq_eq_false_iff_ne.mpr ht
    cases hstate with
    | inl hcr =>
      have h1 : ((some "create" : Option String) == some "cache") = false := rfl
      have h2 : ((some "create" : Option String) == some "delete") = false := rfl
      simp only [cacheStep, hs3, hp, Bool.false_eq_true, if_false, hcr, h1, h2, hetag,
        ht2]
      split <;> simp [saveCacheSt]
    | inr hup =>
      have h1 : ((some "update" : Option String) == some "cache") = false := rfl
      have h2 : ((some "update" : Option String) == some "delete") = false := rfl
      simp only [cacheStep, hs3, hp, Bool.false_eq_true, if_false, hup, h1, h2, hetag,
        ht2]
      split <;> simp [saveCacheSt]
  · intro hstate
    have h1 : ((some "cache" : Option String) == some "cache") = true := rfl
    simp only [cacheStep, hs3, hp, Bool.false_eq_true, if_false, hstate, h1, if_true]

/-- C9, witness: concrete delete, create and cache-hit files through one
cache step. -/
theorem cache_state_transitions_witness :
    (cacheStep { cache := [("k", "\"old\"")] }
        { contents := .null, s3 := some { path := "k", state := some "delete" } }).cache =
      delC [("k", "\"old\"")] "k" ∧
    (cacheStep {}
        { contents := .null,
          s3 := some { path := "k", state := some "create", etag := some "\"e\"" } }).cache =
      setC [] "k" "\"e\"" ∧
    (cacheStep { cache := [("k", "\"old\"")] }
        { contents := .null, s3 := some { path := "k", state := some "cache" } }).cache =
      [("k", "\"old\"")] :=
  ⟨(cache_state_transitions { cache := [("k", "\"old\"")] }
      { contents := .null, s3 := some { path := "k", state := some "delete" } }
      { path := "k", state := some "delete" } rfl (by decide)).1 rfl,
   (cache_state_transitions {}
      { contents := .null,
        s3 := some { path := "k", state := some "create", etag := some "\"e\"" } }
      { path := "k", state := some "create", etag := some "\"e\"" } rfl (by decide)).2.1
      "\"e\"" (Or.inl rfl) rfl (by decide),
   (cache_state_transitions { cache := [("k", "\"old\"")] }
      { contents := .null, s3 := some { path := "k", state := some "cache" } }
      { path := "k", state := some "cache" } rfl (by decide)).2.2 rfl⟩

/-- C10: an empty or absent key list makes `buildDeleteMultiple` return
nothing, and a sync flush whose computed delete set is empty completes
without invoking `deleteObjects`. -/
theorem empty_delete_no_call :
    buildDeleteMultiple none = none ∧ buildDeleteMultiple (some []) = none ∧
    (∀ newFiles whitelist listed r, syncFlush newFiles whitelist listed = .ok r →
      r.toDelete = [] → r.deleteCall = none) := by
  refine ⟨rfl, rfl, ?_⟩
  intro nf wl listed r h htd
  unfold syncFlush at h
  cases hc : computeToDelete nf wl listed with
  | error e =>
    simp [hc] at h
  | ok td =>
    simp only [hc] at h
    by_cases hl : td.length = 0
    · rw [if_pos hl] at h
      simp only [Except.ok.injEq] at h
      subst h
      rfl
    · rw [if_neg hl] at h
      simp only [Except.ok.injEq] at h
      subst h
      simp only [] at htd
      simp [htd] at hl

/-- C10, witness: an empty run over an empty listing issues no delete
call. -/
theorem empty_delete_no_call_witness :
    ({ toDelete := [], deleteCall := none } : SyncFlushResult).deleteCall = none :=
  empty_delete_no_call.2.2 [] [] [] { toDelete := [], deleteCall := none } rfl rfl

theorem fileShouldBeDeleted_wellFormed (key : String) (wl : List WEntry)
    (hw : ∀ e ∈ wl, wellFormedW e) :
    fileShouldBeDeleted key wl = .ok (!matchesWhitelist key wl) := by
  induction wl with
  | nil => simp [fileShouldBeDeleted, matchesWhitelist]
  | cons e rest ih =>
    have hrest : ∀ x ∈ rest, wellFormedW x := fun x hx => hw x (List.mem_cons_of_mem e hx)
    cases e with
    | regex t =>
      by_cases htk : t key = true
      · simp [fileShouldBeDeleted, matchesWhitelist, htk]
      · rw [Bool.not_eq_true] at htk
        simp [fileShouldBeDeleted, matchesWhitelist, htk, ih hrest]
    | str s =>
      by_cases hsk : (s == key) = true
      · simp [fileShouldBeDeleted, matchesWhitelist, hsk]
      · rw [Bool.not_eq_true] at hsk
        simp [fileShouldBeDeleted, matchesWhitelist, hsk, ih hrest]
    | other =>
      exact absurd (hw .other (List.mem_cons_self _ _)) (by simp [wellFormedW])

theorem matchesWhitelist_cons (key : String) (e : WEntry) (rest : List WEntry) :
    matchesWhitelist key (e :: rest) =
      ((match e with
        | WEntry.regex t => t key
        | WEntry.str s => s == key
        | WEntry.other => false) || matchesWhitelist key rest) := rfl

theorem fileShouldBeDeleted_true_no_match (key : String) (wl : List WEntry)
    (h : fileShouldBeDeleted key wl = .ok true) :
    matchesWhitelist key wl = false := by
  induction wl with
  | nil => simp [matchesWhitelist]
  | cons e rest ih =>
    cases e with
    | regex t =>
      by_cases htk : t key = true
      · simp [fileShouldBeDeleted, htk] at h
      · rw [Bool.not_eq_true] at htk
        rw [fileShouldBeDeleted] at h
        simp only [htk, Bool.false_eq_true, if_false] at h
        rw [matchesWhitelist_cons]
        simp only [htk, Bool.false_or]
        exact ih h
    | str s =>
      by_cases hsk : (s == key) = true
      · simp [fileShouldBeDeleted, hsk] at h
      · rw [Bool.not_eq_true] at hsk
        rw [fileShouldBeDeleted] at h
        simp only [hsk, Bool.false_eq_true, if_false] at h
        rw [matchesWhitelist_cons]
        simp only [hsk, Bool.false_or]
        exact ih h
    | other => simp [fileShouldBeDeleted] at h

theorem computeToDelete_mem_deleted (nf : List String) (wl : List WEntry)
    (listed : List String) (res : List String) (k : String)
    (h : computeToDelete nf wl listed = .ok res) (hk : k ∈ res) :
    fileShouldBeDeleted k wl = .ok true := by
  induction listed generalizing res with
  | nil =>
    rw [computeToDelete] at h
    simp only [Except.ok.injEq] at h
    subst h
    simp at hk
  | cons key rest ih =>
    rw [computeToDelete] at h
    by_cases hc : nf.contains key = true
    · rw [if_pos hc] at h
      exact ih res h hk
    · rw [if_neg hc] at h
      cases hf : fileShouldBeDeleted key wl with
      | error e =>
        simp only [hf] at h
        exact Except.noConfusion h
      | ok b =>
        simp only [hf] at h
        cases b with
        | false => exact ih res h hk
        | true =>
          cases hr : computeToDelete nf wl rest with
          | error e =>
            simp only [hr, Except.map] at h
            exact Except.noConfusion h
          | ok res2 =>
            simp only [hr, Except.map, Except.ok.injEq] at h
            subst h
            rcases List.mem_cons.mp hk with hk1 | hk2
            · subst hk1
              exact hf
            · exact ih res2 hr hk2

/-- C2: with a well-formed whitelist, the delete set computed by the sync
flush is exactly the listed keys that were neither published in this run
nor match a whitelist entry (literal string equality or pattern match);
and unconditionally, a key matching any whitelist entry never appears in
a successfully computed delete set. -/
theorem sync_delete_set :
    (∀ newFiles whitelist listed, (∀ e ∈ whitelist, wellFormedW e) →
      computeToDelete newFiles whitelist listed =
        .ok (listed.filter fun k => !newFiles.contains k && !matchesWhitelist k whitelist)) ∧
    (∀ newFiles whitelist listed res k,
      computeToDelete newFiles whitelist listed = .ok res →
      matchesWhitelist k whitelist = true → k ∉ res) := by
  constructor
  · intro nf wl listed hw
    induction listed with
    | nil => rfl
    | cons key rest ih =>
      rw [computeToDelete]
      simp only [List.filter_cons]
      by_cases hc : nf.contains key = true
      · rw [if_pos hc, hc]
        simp [ih]
      · rw [if_neg hc]
        rw [Bool.not_eq_true] at hc
        rw [fileShouldBeDeleted_wellFormed key wl hw, hc]
        by_cases hm : matchesWhitelist key wl = true
        · rw [hm]
          simp [ih]
        · rw [Bool.not_eq_true] at hm
          rw [hm]
          simp [ih, Except.map]
  · intro nf wl listed res k h hm hk
    have := computeToDelete_mem_deleted nf wl listed res k h hk
    rw [fileShouldBeDeleted_true_no_match k wl this] at hm
    exact absurd hm (by simp)

/-- C2, witness: the spec scenario with listing `a,b,c,d`, published `a,b`
and whitelist `c` yields the delete set `d`, and the whitelisted key `c`
is not in it. -/
theorem sync_delete_set_witness :
    computeToDelete ["a", "b"] [WEntry.str "c"] ["a", "b", "c", "d"] = .ok ["d"] ∧
    "c" ∉ ["d"] :=
  ⟨(sync_delete_set.1 ["a", "b"] [WEntry.str "c"] ["a", "b", "c", "d"]
      (by intro e he; simp at he; subst he; simp [wellFormedW])).trans rfl,
   sync_delete_set.2 ["a", "b"] [WEntry.str "c"] ["a", "b", "c", "d"] ["d"] "c"
      ((sync_delete_set.1 ["a", "b"] [WEntry.str "c"] ["a", "b", "c", "d"]
        (by intro e he; simp at he; subst he; simp [wellFormedW])).trans rfl)
      (by decide)⟩

/-- C4: evaluation of `if (++counter % 10) saveCache()` at the failing
input. Ten consecutive cache-relevant files produce nine opportunistic
cache writes during the stream (one after every file except the tenth),
not one write per block of ten as the claim and the source comment
state; the finish flush then adds one more. -/
theorem cache_flush_every_file_but_tenth :
    (cacheStream {} (List.replicate 10
      ({ contents := .null,
         s3 := some { path := "k", state := some "delete" } } : VFile))).saves.length = 9 ∧
    (cacheRun {} (List.replicate 10
      ({ contents := .null,
         s3 := some { path := "k", state := some "delete" } } : VFile))).saves.length = 10 ∧
    (cacheStream {} (List.replicate 1
      ({ contents := .null,
         s3 := some { path := "k", state := some "delete" } } : VFile))).saves.length = 1 := by
  refine ⟨by decide, by decide, by decide⟩

theorem computeToDelete_unfiltered (l : List String) :
    computeToDelete [] [] l = .ok l := by
  induction l with
  | nil => rfl
  | cons k rest ih =>
    rw [computeToDelete]
    simp [fileShouldBeDeleted, ih, Except.map]

/-- C5, counterexample: a delete set of 1001 keys is sent to the remote
store as a single `deleteObjects` call whose request carries all 1001
keys, exceeding the modelled 1000-key per-call store limit — there is no
batching bound in the source. -/
theorem delete_batch_unbounded :
    syncFlush [] [] (List.replicate 1001 "k") =
      .ok { toDelete := List.replicate 1001 "k",
            deleteCall := some (some { Delete :=
              { Objects := List.replicate 1001 { Key := "k" } } }) } ∧
    storeDeleteLimit < (List.replicate 1001 ({ Key := "k" } : DeleteObjectEntry)).length := by
  have hlen : (List.replicate 1001 "k").length = 1001 := List.length_replicate 1001 "k"
  have hne : ¬ (List.replicate 1001 "k").length = 0 := by rw [hlen]; omega
  constructor
  · unfold syncFlush
    simp only [computeToDelete_unfiltered]
    rw [if_neg hne]
    have hb : buildDeleteMultiple (some (List.replicate 1001 "k")) =
        some { Delete := { Objects := List.replicate 1001 { Key := "k" } } } := by
      show (if (List.replicate 1001 "k").length = 0 then (none : Option DeleteRequest)
        else some { Delete := { Objects :=
          (List.replicate 1001 "k").map fun k => ({ Key := k } : DeleteObjectEntry) } }) =
        some { Delete := { Objects := List.replicate 1001 { Key := "k" } } }
      rw [if_neg hne, List.map_replicate]
    rw [hb]
  · rw [List.length_replicate]
    decide

/-- C5, amended: `sync` issues no `deleteObjects` call for an empty delete
set, and for a non-empty one it issues exactly one call whose request
contains the entire delete set, with no batch-size chunking; the flush
reports that single call's outcome. -/
theorem single_delete_call (newFiles : List String) (whitelist : List WEntry)
    (listed : List String) (r : SyncFlushResult)
    (h : syncFlush newFiles whitelist listed = .ok r) :
    (r.toDelete = [] → r.deleteCall = none) ∧
    (r.toDelete ≠ [] → r.deleteCall =
      some (some { Delete := { Objects := r.toDelete.map fun k => { Key := k } } })) := by
  unfold syncFlush at h
  cases hc : computeToDelete newFiles whitelist listed with
  | error e => simp [hc] at h
  | ok td =>
    simp only [hc] at h
    by_cases hl : td.length = 0
    · rw [if_pos hl] at h
      simp only [Except.ok.injEq] at h
      subst h
      constructor
      · intro _
        rfl
      · intro hne
        exact absurd (List.length_eq_zero.mp hl) hne
    · rw [if_neg hl] at h
      simp only [Except.ok.injEq] at h
      subst h
      constructor
      · intro h0
        simp only [] at h0
        simp [h0] at hl
      · intro _
        have hb : buildDeleteMultiple (some td) =
            some { Delete := { Objects := td.map fun k => { Key := k } } } := by
          show (if td.length = 0 then (none : Option DeleteRequest)
            else some { Delete :=
              { Objects := td.map fun k => ({ Key := k } : DeleteObjectEntry) } }) =
            some { Delete :=
              { Objects := td.map fun k => ({ Key := k } : DeleteObjectEntry) } }
          rw [if_neg hl]
        show some (buildDeleteMultiple (some td)) =
          some (some { Delete := { Objects := td.map fun k => { Key := k } } })
        rw [hb]
  
/-- C5, witness for the amended theorem: a one-key delete set issues the
single call carrying that key. -/
theorem single_delete_call_witness :
    ({ toDelete := ["k"],
       deleteCall := some (some { Delete := { Objects := [{ Key := "k" }] } }) } :
      SyncFlushResult).deleteCall =
      some (some { Delete := { Objects := [{ Key := "k" }] } }) :=
  (single_delete_call [] [] ["k"]
    { toDelete := ["k"],
      deleteCall := some (some { Delete := { Objects := [{ Key := "k" }] } }) }
    rfl).2 (by decide)

/-- C6: the `headObject` callback treats a 403 or 404 error exactly like an
absent object (the empty response `{}`), proceeding to the
create/update/skip decision, while any other error code aborts the file:
nothing is emitted, no `putObject` is issued, and the error carrying that
status code propagates through the callback. -/
theorem head_error_handling (md5Hash : List Nat → String)
    (ml mc : String → Option String) (hdrs : Headers) (opts : Options) (cache : Cache)
    (putOk : Bool) (now : Nat) (file0 : VFile) :
    (∀ code, (code == 403 || code == 404) = true →
      publishOne md5Hash ml mc hdrs opts cache (.err code) putOk now file0 =
        publishOne md5Hash ml mc hdrs opts cache (.ok {}) putOk now file0) ∧
    (∀ code buf, (code == 403 || code == 404) = false →
      file0.contents = FContents.buffer buf →
      ((getS3 (initFile file0)).state == some "delete") = false →
      (!opts.force && (getC cache (getS3 (initFile file0)).path ==
        some ("\"" ++ md5Hash buf ++ "\""))) = false →
      opts.simulate = false →
      publishOne md5Hash ml mc hdrs opts cache (.err code) putOk now file0 =
        { err := some (.remote code), headCalled := true }) := by
  constructor
  · intro code hb
    cases hcont : file0.contents with
    | null =>
      rw [publishOne_null md5Hash ml mc hdrs opts cache (.err code) putOk now file0 hcont,
        publishOne_null md5Hash ml mc hdrs opts cache (.ok {}) putOk now file0 hcont]
    | stream =>
      unfold publishOne
      rw [hcont]
    | buffer buf =>
      cases hdel : ((getS3 (initFile file0)).state == some "delete") with
      | true =>
        rw [publishOne_buffer_delete md5Hash ml mc hdrs opts cache (.err code) putOk now
            file0 buf hcont hdel,
          publishOne_buffer_delete md5Hash ml mc hdrs opts cache (.ok {}) putOk now
            file0 buf hcont hdel]
      | false =>
        cases hhit : (!opts.force && (getC cache (getS3 (initFile file0)).path ==
            some ("\"" ++ md5Hash buf ++ "\""))) with
        | true =>
          rw [publishOne_buffer_hit md5Hash ml mc hdrs opts cache (.err code) putOk now
              file0 buf hcont hdel hhit,
            publishOne_buffer_hit md5Hash ml mc hdrs opts cache (.ok {}) putOk now
              file0 buf hcont hdel hhit]
        | false =>
          cases hsim : opts.simulate with
          | true =>
            rw [publishOne_buffer_simulate md5Hash ml mc hdrs opts cache (.err code) putOk now
                file0 buf hcont hdel hhit hsim,
              publishOne_buffer_simulate md5Hash ml mc hdrs opts cache (.ok {}) putOk now
                file0 buf hcont hdel hhit hsim]
          | false =>
            rw [publishOne_buffer_miss md5Hash ml mc hdrs opts cache (.err code) putOk now
                file0 buf hcont hdel hhit hsim,
              publishOne_buffer_miss md5Hash ml mc hdrs opts cache (.ok {}) putOk now
                file0 buf hcont hdel hhit hsim]
            simp only [publishHead, hb, if_true]
  · intro code buf hb hbuf hdel hmiss hsim
    rw [publishOne_buffer_miss md5Hash ml mc hdrs opts cache (.err code) putOk now file0 buf
      hbuf hdel hmiss hsim]
    simp only [publishHead, hb, Bool.false_eq_true, if_false]

/-- C6, witness: a 404 behaves like an absent object and a 500 aborts the
file, on a concrete buffer file. -/
theorem head_error_handling_witness :
    publishOne (fun _ => "h") (fun _ => none) (fun _ => none) [] {} [] (.err 404) true 0
      { contents := .buffer [1], relative := "a", path := "a" } =
    publishOne (fun _ => "h") (fun _ => none) (fun _ => none) [] {} [] (.ok {}) true 0
      { contents := .buffer [1], relative := "a", path := "a" } ∧
    publishOne (fun _ => "h") (fun _ => none) (fun _ => none) [] {} [] (.err 500) true 0
      { contents := .buffer [1], relative := "a", path := "a" } =
      { err := some (.remote 500), headCalled := true } :=
  ⟨(head_error_handling (fun _ => "h") (fun _ => none) (fun _ => none) [] {} [] true 0
      { contents := .buffer [1], relative := "a", path := "a" }).1 404 rfl,
   (head_error_handling (fun _ => "h") (fun _ => none) (fun _ => none) [] {} [] true 0
      { contents := .buffer [1], relative := "a", path := "a" }).2 500 [1] rfl rfl
      (by decide) (by decide) rfl⟩

theorem publishDecide_createOnly (opts : Options) (etag : String) (res : RemoteMeta)
    (putOk : Bool) (now : Nat) (f : VFile)
    (hco : opts.createOnly = true) (het : truthyS res.eTag = true) :
    publishDecide opts etag res putOk now f =
      { out := some (setS3 f
          { getS3 f with
            state := some "skip", etag := some etag, date := res.lastModified }),
        headCalled := true } := by
  have hc : (opts.createOnly && truthyS res.eTag
      || !opts.force && (res.eTag == some etag)) = true := by
    rw [hco, het]
    rfl
  simp only [publishDecide]
  rw [if_pos hc]

/-- C8: in create-only mode, a buffer file that reaches the remote check
and finds an existing object (a truthy remote etag, regardless of its
value) is marked `skip` with no `putObject` issued; and more generally,
whatever path a file takes, create-only mode with an existing remote
object never issues a write. -/
theorem create_only_skip (md5Hash : List Nat → String)
    (ml mc : String → Option String) (hdrs : Headers) (opts : Options) (cache : Cache)
    (putOk : Bool) (now : Nat) (file0 : VFile) (res : RemoteMeta) :
    (∀ buf, file0.contents = FContents.buffer buf →
      ((getS3 (initFile file0)).state == some "delete") = false →
      (!opts.force && (getC cache (getS3 (initFile file0)).path ==
        some ("\"" ++ md5Hash buf ++ "\""))) = false →
      opts.simulate = false →
      opts.createOnly = true →
      truthyS res.eTag = true →
      publishOne md5Hash ml mc hdrs opts cache (.ok res) putOk now file0 =
        { out := some (setS3 (preparedFile ml mc hdrs opts buf file0)
            { getS3 (preparedFile ml mc hdrs opts buf file0) with
              state := some "skip", etag := some ("\"" ++ md5Hash buf ++ "\""),
              date := res.lastModified }),
          headCalled := true }) ∧
    (opts.createOnly = true → truthyS res.eTag = true →
      (publishOne md5Hash ml mc hdrs opts cache (.ok res) putOk now file0).putCalled =
        false) := by
  constructor
  · intro buf hbuf hdel hmiss hsim hco het
    rw [publishOne_buffer_miss md5Hash ml mc hdrs opts cache (.ok res) putOk now file0 buf
      hbuf hdel hmiss hsim]
    show publishDecide opts ("\"" ++ md5Hash buf ++ "\"") res putOk now
      (preparedFile ml mc hdrs opts buf file0) = _
    rw [publishDecide_createOnly opts ("\"" ++ md5Hash buf ++ "\"") res putOk now
      (preparedFile ml mc hdrs opts buf file0) hco het]
  · intro hco het
    cases hcont : file0.contents with
    | null =>
      rw [publishOne_null md5Hash ml mc hdrs opts cache (.ok res) putOk now file0 hcont]
    | stream =>
      unfold publishOne
      rw [hcont]
    | buffer buf =>
      cases hdel : ((getS3 (initFile file0)).state == some "delete") with
      | true =>
        rw [publishOne_buffer_delete md5Hash ml mc hdrs opts cache (.ok res) putOk now
          file0 buf hcont hdel]
      | false =>
        cases hhit : (!opts.force && (getC cache (getS3 (initFile file0)).path ==
            some ("\"" ++ md5Hash buf ++ "\""))) with
        | true =>
          rw [publishOne_buffer_hit md5Hash ml mc hdrs opts cache (.ok res) putOk now
            file0 buf hcont hdel hhit]
        | false =>
          cases hsim : opts.simulate with
          | true =>
            rw [publishOne_buffer_simulate md5Hash ml mc hdrs opts cache (.ok res) putOk now
              file0 buf hcont hdel hhit hsim]
          | false =>
            rw [publishOne_buffer_miss md5Hash ml mc hdrs opts cache (.ok res) putOk now
              file0 buf hcont hdel hhit hsim]
            show (publishDecide opts ("\"" ++ md5Hash buf ++ "\"") res putOk now
              (preparedFile ml mc hdrs opts buf file0)).putCalled = false
            rw [publishDecide_createOnly opts ("\"" ++ md5Hash buf ++ "\"") res putOk now
              (preparedFile ml mc hdrs opts buf file0) hco het]

/-- C8, witness: a concrete buffer file against an existing remote object
with a different etag, in create-only mode. -/
theorem create_only_skip_witness :
    publishOne (fun _ => "h") (fun _ => none) (fun _ => none) [] { createOnly := true } []
      (.ok { eTag := some "\"x\"", lastModified := some 3 }) true 0
      { contents := .buffer [1], relative := "a", path := "a" } =
      { out := some (setS3 (preparedFile (fun _ => none) (fun _ => none) []
          { createOnly := true } [1]
          { contents := .buffer [1], relative := "a", path := "a" })
          { getS3 (preparedFile (fun _ => none) (fun _ => none) []
              { createOnly := true } [1]
              { contents := .buffer [1], relative := "a", path := "a" }) with
            state := some "skip", etag := some ("\"" ++ "h" ++ "\""), date := some 3 }),
        headCalled := true } ∧
    (publishOne (fun _ => "h") (fun _ => none) (fun _ => none) [] { createOnly := true } []
      (.ok { eTag := some "\"x\"", lastModified := some 3 }) true 0
      { contents := .buffer [1], relative := "a", path := "a" }).putCalled = false :=
  ⟨(create_only_skip (fun _ => "h") (fun _ => none) (fun _ => none) []
      { createOnly := true } [] true 0
      { contents := .buffer [1], relative := "a", path := "a" }
      { eTag := some "\"x\"", lastModified := some 3 }).1 [1] rfl rfl (by decide) rfl rfl
      (by decide),
   (create_only_skip (fun _ => "h") (fun _ => none) (fun _ => none) []
      { createOnly := true } [] true 0
      { contents := .buffer [1], relative := "a", path := "a" }
      { eTag := some "\"x\"", lastModified := some 3 }).2 rfl (by decide)⟩

theorem publishHead_out_fields (opts : Options) (etag : String) (head : HeadResult)
    (putOk : Bool) (now : Nat) (f g : VFile)
    (h : (publishHead opts etag head putOk now f).out = some g) :
    g.s3.isSome = true ∧ (getS3 g).path = (getS3 f).path ∧ (getS3 g).etag = some etag ∧
    ((getS3 g).state = some "skip" ∨ (getS3 g).state = some "create" ∨
      (getS3 g).state = some "update") := by
  cases head with
  | ok res => exact publishDecide_out_fields opts etag res putOk now f g h
  | err code =>
    simp only [publishHead] at h
    by_cases hb : (code == 403 || code == 404) = true
    · rw [if_pos hb] at h
      exact publishDecide_out_fields opts etag {} putOk now f g h
    · rw [if_neg hb] at h
      simp at h

theorem s3_eq_some_getS3 (g : VFile) (h : g.s3.isSome = true) : g.s3 = some (getS3 g) := by
  cases hg : g.s3 with
  | none =>
    rw [hg] at h
    simp at h
  | some s => simp [getS3, hg]

theorem cacheStep_cacheState (cst : CacheState) (g : VFile) (sv : S3Info)
    (hg : g.s3 = some sv) (hsc : (sv.state == some "cache") = true) :
    cacheStep cst g = cst := by
  simp only [cacheStep, hg]
  by_cases hp : (sv.path == "") = true
  · rw [if_pos hp]
  · rw [if_neg hp, if_pos hsc]

theorem cacheStep_sets (cst : CacheState) (g : VFile) (sv : S3Info) (t : String)
    (hg : g.s3 = some sv) (hpath : (sv.path == "") = false)
    (hsc : (sv.state == some "cache") = false)
    (hsd : (sv.state == some "delete") = false)
    (het : sv.etag = some t) (hte : (t == "") = false) :
    (cacheStep cst g).cache = setC cst.cache sv.path t := by
  simp only [cacheStep, hg, hpath, Bool.false_eq_true, if_false, hsc, hsd, het, hte]
  split <;> simp [saveCacheSt]

/-- C1: with force off, a buffer file not marked for deletion whose key has
a cache entry equal to the freshly computed fingerprint is marked with the
cache-hit state (`'cache'` in the source) and emitted immediately: the
result carries no error, records no `headObject` or `putObject` call, and
the emitted file is the initialized input with only its state changed (so
no publish headers were computed). Consequently, a file published once
without error (force and simulate off) whose emitted record then flows
through the cache stream reaches the cache-hit state on its second
publish with zero remote-store calls, whatever the remote store would
have answered. -/
theorem publish_cache_hit :
    (∀ (md5Hash : List Nat → String) (ml mc : String → Option String) (hdrs : Headers)
      (opts : Options) (cache : Cache) (head : HeadResult) (putOk : Bool) (now : Nat)
      (file0 : VFile) (buf : List Nat),
      file0.contents = FContents.buffer buf →
      (getS3 (initFile file0)).state ≠ some "delete" →
      opts.force = false →
      getC cache (getS3 (initFile file0)).path = some ("\"" ++ md5Hash buf ++ "\"") →
      publishOne md5Hash ml mc hdrs opts cache head putOk now file0 =
        { out := some (setS3 (initFile file0)
            { getS3 (initFile file0) with state := some "cache" }) }) ∧
    (∀ (md5Hash : List Nat → String) (ml mc : String → Option String) (hdrs : Headers)
      (opts : Options) (cst : CacheState) (head head2 : HeadResult)
      (putOk putOk2 : Bool) (now now2 : Nat) (file0 : VFile) (buf : List Nat) (g : VFile),
      file0.contents = FContents.buffer buf →
      (getS3 (initFile file0)).state ≠ some "delete" →
      (getS3 (initFile file0)).path ≠ "" →
      opts.force = false → opts.simulate = false →
      (publishOne md5Hash ml mc hdrs opts cst.cache head putOk now file0).err = none →
      (publishOne md5Hash ml mc hdrs opts cst.cache head putOk now file0).out = some g →
      publishOne md5Hash ml mc hdrs opts (cacheStep cst g).cache head2 putOk2 now2 file0 =
        { out := some (setS3 (initFile file0)
            { getS3 (initFile file0) with state := some "cache" }) }) := by
  constructor
  · intro md5Hash ml mc hdrs opts cache head putOk now file0 buf hbuf hdel hforce hcache
    have hdelb : ((getS3 (initFile file0)).state == some "delete") = false :=
      beq_eq_false_iff_ne.mpr hdel
    have hhit : (!opts.force && (getC cache (getS3 (initFile file0)).path ==
        some ("\"" ++ md5Hash buf ++ "\""))) = true := by
      rw [hforce, hcache]
      simp
    exact publishOne_buffer_hit md5Hash ml mc hdrs opts cache head putOk now file0 buf
      hbuf hdelb hhit
  · intro md5Hash ml mc hdrs opts cst head head2 putOk putOk2 now now2 file0 buf g
      hbuf hdel hpath hforce hsim herr hout
    have hdelb : ((getS3 (initFile file0)).state == some "delete") = false :=
      beq_eq_false_iff_ne.mpr hdel
    have hpathb : ((getS3 (initFile file0)).path == "") = false :=
      beq_eq_false_iff_ne.mpr hpath
    by_cases hhit : (getC cst.cache (getS3 (initFile file0)).path ==
        some ("\"" ++ md5Hash buf ++ "\"")) = true
    · have hhitb : (!opts.force && (getC cst.cache (getS3 (initFile file0)).path ==
          some ("\"" ++ md5Hash buf ++ "\""))) = true := by
        rw [hforce, hhit]
        rfl
      have h1 := publishOne_buffer_hit md5Hash ml mc hdrs opts cst.cache head putOk now
        file0 buf hbuf hdelb hhitb
      rw [h1] at hout
      simp only [Option.some.injEq] at hout
      have hsc : cacheStep cst g = cst := by
        refine cacheStep_cacheState cst g
          { getS3 (initFile file0) with state := some "cache" } ?_ ?_
        · rw [← hout]
          rfl
        · rfl
      rw [hsc]
      exact publishOne_buffer_hit md5Hash ml mc hdrs opts cst.cache head2 putOk2 now2
        file0 buf hbuf hdelb hhitb
    · have hmissb : (!opts.force && (getC cst.cache (getS3 (initFile file0)).path ==
          some ("\"" ++ md5Hash buf ++ "\""))) = false := by
        rw [Bool.not_eq_true] at hhit
        rw [hforce, hhit]
        rfl
      have h1 := publishOne_buffer_miss md5Hash ml mc hdrs opts cst.cache head putOk now
        file0 buf hbuf hdelb hmissb hsim
      rw [h1] at herr hout
      obtain ⟨hgs, hgpath, hgetag, hgstate⟩ :=
        publishHead_out_fields opts ("\"" ++ md5Hash buf ++ "\"") head putOk now
          (preparedFile ml mc hdrs opts buf file0) g hout
      have hPpath : (getS3 (preparedFile ml mc hdrs opts buf file0)).path =
          (getS3 (initFile file0)).path :=
        (sameButHeaders_preparedFile ml mc hdrs opts buf file0).2.2.2.2.1
      have hgp : (getS3 g).path = (getS3 (initFile file0)).path := hgpath.trans hPpath
      have hg3 : g.s3 = some (getS3 g) := s3_eq_some_getS3 g hgs
      have hpb : ((getS3 g).path == "") = false := by
        rw [hgp]
        exact hpathb
      have hsc : ((getS3 g).state == some "cache") = false := by
        rcases hgstate with hs | hs | hs <;> rw [hs] <;> rfl
      have hsd : ((getS3 g).state == some "delete") = false := by
        rcases hgstate with hs | hs | hs <;> rw [hs] <;> rfl
      have hstep : (cacheStep cst g).cache =
          setC cst.cache (getS3 g).path ("\"" ++ md5Hash buf ++ "\"") :=
        cacheStep_sets cst g (getS3 g) ("\"" ++ md5Hash buf ++ "\"") hg3 hpb hsc hsd
          hgetag (quoted_beq_empty (md5Hash buf))
      have hhit2 : (!opts.force && (getC (cacheStep cst g).cache
          (getS3 (initFile file0)).path == some ("\"" ++ md5Hash buf ++ "\""))) = true := by
        rw [hforce, hstep, hgp, getC_setC]
        simp
      exact publishOne_buffer_hit md5Hash ml mc hdrs opts (cacheStep cst g).cache
        head2 putOk2 now2 file0 buf hbuf hdelb hhit2

/-- C1, witness: a concrete file whose fingerprint is already cached is
emitted in the cache-hit state with no remote call; and a concrete file
first published into an empty cache (create path), whose emitted record
then passes through the cache stream, hits the cache on its second
publish even though the remote store would now answer with a 500 error
(no network call is made). -/
theorem publish_cache_hit_witness :
    publishOne (fun _ => "h") (fun _ => none) (fun _ => none) [] {}
        [("a.txt", "\"h\"")] (.ok {}) true 0
        { contents := .buffer [1], relative := "a.txt", path := "a.txt" } =
      { out := some (setS3
          (initFile { contents := .buffer [1], relative := "a.txt", path := "a.txt" })
          { getS3 (initFile
              { contents := .buffer [1], relative := "a.txt", path := "a.txt" }) with
            state := some "cache" }) } ∧
    publishOne (fun _ => "h") (fun _ => none) (fun _ => none) [] {}
        (cacheStep {}
          { contents := FContents.buffer [1], relative := "a.txt", path := "a.txt",
            unzipPath := none,
            s3 := some { headers := [("Content-Type", HVal.str "application/octet-stream"),
                                     ("Content-Length", HVal.num 1)],
                         path := "a.txt", state := some "create", etag := some "\"h\"",
                         date := some 7 } }).cache (.err 500) false 9
        { contents := .buffer [1], relative := "a.txt", path := "a.txt" } =
      { out := some (setS3
          (initFile { contents := .buffer [1], relative := "a.txt", path := "a.txt" })
          { getS3 (initFile
              { contents := .buffer [1], relative := "a.txt", path := "a.txt" }) with
            state := some "cache" }) } :=
  ⟨publish_cache_hit.1 (fun _ => "h") (fun _ => none) (fun _ => none) [] {}
      [("a.txt", "\"h\"")] (.ok {}) true 0
      { contents := .buffer [1], relative := "a.txt", path := "a.txt" } [1]
      rfl (by decide) rfl (by decide),
   publish_cache_hit.2 (fun _ => "h") (fun _ => none) (fun _ => none) [] {} {}
      (.ok {}) (.err 500) true false 7 9
      { contents := .buffer [1], relative := "a.txt", path := "a.txt" } [1]
      { contents := FContents.buffer [1], relative := "a.txt", path := "a.txt",
        unzipPath := none,
        s3 := some { headers := [("Content-Type", HVal.str "application/octet-stream"),
                                 ("Content-Length", HVal.num 1)],
                     path := "a.txt", state := some "create", etag := some "\"h\"",
                     date := some 7 } }
      rfl (by decide) (by decide) rfl rfl (by decide) (by decide)⟩
